import Mathlib

/-!
Verification of the rust-proxy repository's core against its specification.

Shallow embedding conventions:
* Rust `&[u8]` buffers that are immediately decoded with `String::from_utf8_lossy`
  are modelled as `List Char` (the decoded text); all scanning helpers in the
  source operate on that decoded text, and `from_utf8_lossy` is the identity on
  valid text.  The ASCII-only `to_uppercase`/`to_lowercase` of Lean's `Char` is
  used where the source applies Rust's case mapping to HTTP tokens (ASCII).
* Rust `String` values inside the auth module are modelled as their UTF-8 byte
  sequences (`List Nat`, each element < 256), because `validate_proxy_auth`
  works through `base64::decode : &str -> Vec<u8>` and `String::from_utf8`.
* Async handlers are modelled as pure functions from the outcome of each I/O
  step (dial result, read results) to the observable actions they perform
  (bytes written, loops continued), following the source's control flow.
-/

namespace RustProxy

/-! ## Generic text helpers (Rust `str` methods on `List Char`) -/

/-- Characters of a string literal. -/
def strL (s : String) : List Char := s.toList

/-- Rust `char::is_whitespace` (the Unicode White_Space set). -/
def isWs (c : Char) : Bool :=
  c.toNat ∈ [9, 10, 11, 12, 13, 32, 133, 160, 5760, 8192, 8193, 8194, 8195,
    8196, 8197, 8198, 8199, 8200, 8201, 8202, 8232, 8233, 8239, 8287, 12288]

/-- Helper for `splitOnChar`: accumulates the current piece reversed. -/
def splitOnAux (sep : Char) : List Char → List Char → List (List Char)
  | [], acc => [acc.reverse]
  | c :: t, acc =>
    if c = sep then acc.reverse :: splitOnAux sep t []
    else splitOnAux sep t (c :: acc)

/-- Rust `str::split(sep)`: always returns at least one piece. -/
def splitOnChar (sep : Char) (l : List Char) : List (List Char) :=
  splitOnAux sep l []

/-- Helper for `splitWs`. -/
def splitWsAux : List Char → List Char → List (List Char)
  | [], acc => if acc = [] then [] else [acc.reverse]
  | c :: t, acc =>
    if isWs c then
      if acc = [] then splitWsAux t [] else acc.reverse :: splitWsAux t []
    else splitWsAux t (c :: acc)

/-- Rust `str::split_whitespace`: splits on whitespace runs, no empty pieces. -/
def splitWs (l : List Char) : List (List Char) := splitWsAux l []

/-- Strip one trailing carriage return, as `str::lines` does per line. -/
def stripCR (l : List Char) : List Char :=
  match l.getLast? with
  | some c => if c = '\r' then l.dropLast else l
  | none => l

/-- Rust `str::lines`: split on newline, drop a final empty piece (trailing
newline or empty input), strip one trailing carriage return per line. -/
def linesOf (s : List Char) : List (List Char) :=
  let ps := splitOnChar '\n' s
  let ps := if ps.getLast? = some [] then ps.dropLast else ps
  ps.map stripCR

/-- First line of the request text (`request.lines().next()`). -/
def firstLineOf (s : List Char) : Option (List Char) := (linesOf s).head?

/-- Rust `char::to_uppercase` restricted to ASCII (HTTP tokens). -/
def toUpperL (l : List Char) : List Char := l.map Char.toUpper

/-- Rust `char::to_lowercase` restricted to ASCII (HTTP tokens). -/
def toLowerL (l : List Char) : List Char := l.map Char.toLower

/-- Rust `str::trim` (strip leading and trailing whitespace). -/
def trimL (l : List Char) : List Char :=
  ((l.dropWhile isWs).reverse.dropWhile isWs).reverse

/-- Index of the first occurrence of `pat` in a list (`str::find`). -/
def findSubIdx (pat : List Char) : List Char → Option Nat
  | [] => if List.isPrefixOf pat ([] : List Char) then some 0 else none
  | c :: t =>
    if List.isPrefixOf pat (c :: t) then some 0
    else (findSubIdx pat t).map (fun i => i + 1)

/-- Rust `str::contains` for a literal pattern. -/
def containsL (hay pat : List Char) : Bool := (findSubIdx pat hay).isSome

/-- Decimal digit test. -/
def isDigitC (c : Char) : Bool := 48 ≤ c.toNat ∧ c.toNat ≤ 57

/-- Value of a decimal digit string. -/
def digitsVal (l : List Char) : Nat :=
  l.foldl (fun acc c => acc * 10 + (c.toNat - 48)) 0

/-- Rust `str::parse::<u16>()`: optional leading plus sign, at least one
decimal digit, value at most 65535; anything else fails. -/
def parseU16 (l : List Char) : Option Nat :=
  let l2 := match l with
    | '+' :: t => t
    | _ => l
  if l2 = [] then none
  else if l2.all isDigitC then
    if digitsVal l2 ≤ 65535 then some (digitsVal l2) else none
  else none

/-! ## UTF-8 (Rust `String::from_utf8` validity, `str` byte encoding) -/

/-- UTF-8 validation automaton state: `none` is the reject sink;
`some (need, lo, hi)` means `need` continuation bytes are still expected
and the next byte must lie in `[lo, hi]`.  `some (0, 0, 0)` is the accept
state at a scalar boundary. -/
def utf8Accept : Option (Nat × Nat × Nat) := some (0, 0, 0)

/-- One step of the RFC 3629 validation automaton: lead bytes open a
sequence with the range constraint that excludes overlong encodings,
surrogates and scalars above 0x10FFFF; continuation bytes must satisfy
the pending range, further ones the generic 0x80..0xBF. -/
def utf8Step : Option (Nat × Nat × Nat) → Nat → Option (Nat × Nat × Nat)
  | none, _ => none
  | some (0, _, _), b =>
    if b ≤ 127 then utf8Accept
    else if 194 ≤ b ∧ b ≤ 223 then some (1, 128, 191)
    else if b = 224 then some (2, 160, 191)
    else if (225 ≤ b ∧ b ≤ 236) ∨ b = 238 ∨ b = 239 then some (2, 128, 191)
    else if b = 237 then some (2, 128, 159)
    else if b = 240 then some (3, 144, 191)
    else if 241 ≤ b ∧ b ≤ 243 then some (3, 128, 191)
    else if b = 244 then some (3, 128, 143)
    else none
  | some (1, lo, hi), b => if lo ≤ b ∧ b ≤ hi then utf8Accept else none
  | some (n + 2, lo, hi), b => if lo ≤ b ∧ b ≤ hi then some (n + 1, 128, 191) else none

/-- Run the automaton over a byte list. -/
def utf8Scan (st : Option (Nat × Nat × Nat)) : List Nat → Option (Nat × Nat × Nat)
  | [] => st
  | b :: t => utf8Scan (utf8Step st b) t

/-- Rust `str::from_utf8(bytes).is_ok()`: RFC 3629 UTF-8 validity. -/
def isValidUtf8 (l : List Nat) : Bool :=
  utf8Scan utf8Accept l = utf8Accept

/-- UTF-8 encoding of one Unicode scalar value. -/
def utf8EncodeChar (c : Char) : List Nat :=
  let v := c.toNat
  if v ≤ 127 then [v]
  else if v ≤ 2047 then [192 + v / 64, 128 + v % 64]
  else if v ≤ 65535 then [224 + v / 4096, 128 + v / 64 % 64, 128 + v % 64]
  else [240 + v / 262144, 128 + v / 4096 % 64, 128 + v / 64 % 64, 128 + v % 64]

/-- UTF-8 byte sequence of a text (`str::as_bytes`). -/
def utf8Encode (l : List Char) : List Nat :=
  l.foldr (fun c acc => utf8EncodeChar c ++ acc) []

/-! ## Base64 (the `base64` crate's `general_purpose::STANDARD` engine:
standard alphabet, canonical padding required, trailing bits must be zero) -/

/-- Standard-alphabet byte of a 6-bit group. -/
def b64Char (v : Nat) : Nat :=
  if v < 26 then 65 + v
  else if v < 52 then 97 + (v - 26)
  else if v < 62 then 48 + (v - 52)
  else if v = 62 then 43
  else 47

/-- 6-bit value of a standard-alphabet byte; `none` off the alphabet. -/
def b64Index (c : Nat) : Option Nat :=
  if 65 ≤ c ∧ c ≤ 90 then some (c - 65)
  else if 97 ≤ c ∧ c ≤ 122 then some (c - 97 + 26)
  else if 48 ≤ c ∧ c ≤ 57 then some (c - 48 + 52)
  else if c = 43 then some 62
  else if c = 47 then some 63
  else none

/-- `STANDARD.encode`: bytes to padded base64 text (as ASCII bytes). -/
def b64Encode : List Nat → List Nat
  | [] => []
  | [b1] => [b64Char (b1 / 4), b64Char (b1 % 4 * 16), 61, 61]
  | [b1, b2] => [b64Char (b1 / 4), b64Char (b1 % 4 * 16 + b2 / 16), b64Char (b2 % 16 * 4), 61]
  | b1 :: b2 :: b3 :: rest =>
    b64Char (b1 / 4) :: b64Char (b1 % 4 * 16 + b2 / 16) ::
      b64Char (b2 % 16 * 4 + b3 / 64) :: b64Char (b3 % 64) :: b64Encode rest

/-- `STANDARD.decode`: length must be a multiple of 4, padding only at the
end and canonical, unused trailing bits must be zero. -/
def b64Decode : List Nat → Option (List Nat)
  | [] => some []
  | c1 :: c2 :: c3 :: c4 :: rest =>
    match b64Index c1, b64Index c2 with
    | some i1, some i2 =>
      if c3 = 61 then
        if c4 = 61 ∧ rest = [] ∧ i2 % 16 = 0 then some [i1 * 4 + i2 / 16] else none
      else
        match b64Index c3 with
        | some i3 =>
          if c4 = 61 then
            if rest = [] ∧ i3 % 4 = 0 then
              some [i1 * 4 + i2 / 16, i2 % 16 * 16 + i3 / 4]
            else none
          else
            match b64Index c4 with
            | some i4 =>
              (b64Decode rest).map
                (fun r => (i1 * 4 + i2 / 16) :: (i2 % 16 * 16 + i3 / 4) :: (i3 % 4 * 64 + i4) :: r)
            | none => none
        | none => none
    | _, _ => none
  | _ => none

/-- Split a byte list at the first occurrence of `sep`
(Rust `str::split_once`; for an ASCII `sep` the byte-level split agrees
with the character-level one on valid UTF-8 text). -/
def splitOnceByte (sep : Nat) : List Nat → Option (List Nat × List Nat)
  | [] => none
  | b :: rest =>
    if b = sep then some ([], rest)
    else (splitOnceByte sep rest).map (fun p => (b :: p.1, p.2))

/-! ## src/auth.rs -/

/-- The bytes of `"Basic "`. -/
def basicBytes : List Nat := [66, 97, 115, 105, 99, 32]

/-- `AuthConfig` (username and password are Rust `String`s, modelled as
their UTF-8 bytes). -/
structure AuthConfig where
  username : List Nat
  password : List Nat
deriving DecidableEq

/-- `AuthConfig::validate_proxy_auth`: header must start with `"Basic "`;
the remainder must decode as standard base64 into valid UTF-8 text which,
split at its first colon, equals the configured username and password. -/
def validate_proxy_auth (cfg : AuthConfig) (header : Option (List Nat)) : Bool :=
  match header with
  | none => false
  | some h =>
    if List.isPrefixOf basicBytes h then
      match b64Decode (h.drop 6) with
      | none => false
      | some decoded =>
        if isValidUtf8 decoded then
          match splitOnceByte 58 decoded with
          | some (u, p) => decide (u = cfg.username ∧ p = cfg.password)
          | none => false
        else false
    else false

/-- `AuthConfig::generate_auth_header`: `"Basic " + base64(user + ":" + pass)`. -/
def generate_auth_header (cfg : AuthConfig) : List Nat :=
  basicBytes ++ b64Encode (cfg.username ++ 58 :: cfg.password)

/-- `check_authentication`: no configured auth admits everything. -/
def check_authentication (cfg : Option AuthConfig) (header : Option (List Nat)) : Bool :=
  match cfg with
  | some c => validate_proxy_auth c header
  | none => true

/-! ## src/parser/detector.rs -/

/-- `ProtocolType` from the detector (fields as in the source). -/
inductive ProtocolType where
  | Http10
  | Http11
  | Http2
  | WebSocketUpgrade (key : List Char) (host : List Char) (port : Nat) (version : List Char)
  | ConnectTunnel (host : List Char) (port : Nat) (version : List Char)
  | Unknown
deriving DecidableEq

/-- `is_http2_preface`: buffer begins with the 24-byte HTTP/2 preface. -/
def is_http2_preface (s : List Char) : Bool :=
  List.isPrefixOf (strL "PRI * HTTP/2.0\r\n\r\nSM\r\n\r\n") s

/-- `parse_http_method`: uppercased first whitespace token of the first line. -/
def parse_http_method (s : List Char) : Option (List Char) :=
  (firstLineOf s).bind fun fl => ((splitWs fl).head?).map toUpperL

/-- `parse_http_version`: uppercased third whitespace token of the first
line, when it exists. -/
def parse_http_version (s : List Char) : Option (List Char) :=
  (firstLineOf s).bind fun fl => (splitWs fl)[2]?.map toUpperL

/-- `parse_connect_target`: second token of the first line, split on `:`;
the piece before the first colon is the host, the piece between the first
and second colon (or the rest, with one colon) must parse as a `u16` port. -/
def parse_connect_target (s : List Char) : Option (List Char × Nat) :=
  (firstLineOf s).bind fun fl =>
    let parts := splitWs fl
    if parts.length < 2 then none
    else
      match parts[1]? with
      | none => none
      | some hp =>
        match splitOnChar ':' hp with
        | host :: rest =>
          match rest.head? with
          | none => none
          | some second => (parseU16 second).map (fun p => (host, p))
        | [] => none

/-- `is_websocket_upgrade`: the lowercased request text contains both
upgrade markers. -/
def is_websocket_upgrade (s : List Char) : Bool :=
  containsL (toLowerL s) (strL "upgrade: websocket") &&
    containsL (toLowerL s) (strL "connection: upgrade")

/-- `parse_websocket_details`: the Sec-WebSocket-Key value, and host/port
from the `Host` header (the value taken is the piece after the header
line's first colon; the port defaults to 80). -/
def parse_websocket_details (s : List Char) : Option (List Char × Nat × List Char) :=
  match (linesOf s).find? (fun l => List.isPrefixOf (strL "sec-websocket-key:") (toLowerL l)) with
  | none => none
  | some keyLine =>
    match ((splitOnChar ':' keyLine).get? 1).map trimL with
    | none => none
    | some wsKey =>
      match (linesOf s).find? (fun l => List.isPrefixOf (strL "host:") (toLowerL l)) with
      | none => none
      | some hostLine =>
        match ((splitOnChar ':' hostLine).get? 1).map trimL with
        | none => none
        | some hostValue =>
          match splitOnChar ':' hostValue with
          | host :: rest =>
            match rest.head? with
            | some portStr =>
              (parseU16 (trimL portStr)).map (fun p => (host, p, wsKey))
            | none => some (host, 80, wsKey)
          | [] => none

/-- HTTP version of the first line, defaulting to `HTTP/1.1`. -/
def versionOr11 (s : List Char) : List Char :=
  (parse_http_version s).getD (strL "HTTP/1.1")

/-- Version-token dispatch at the end of `detect_protocol`
(`HTTP/1.0` maps to `Http10`, everything else to `Http11`). -/
def detectVersion (s : List Char) : ProtocolType :=
  match parse_http_version s with
  | some v =>
    if v = strL "HTTP/1.0" then ProtocolType.Http10
    else ProtocolType.Http11
  | none => ProtocolType.Http11

/-- WebSocket then version checks, reached when the CONNECT branch did not
return (non-CONNECT method, or CONNECT target parse failure). -/
def detectRest (s : List Char) : ProtocolType :=
  if is_websocket_upgrade s then
    match parse_websocket_details s with
    | some (h, p, k) => ProtocolType.WebSocketUpgrade k h p (versionOr11 s)
    | none => detectVersion s
  else detectVersion s

/-- `detect_protocol`: preface, then method; CONNECT targets, WebSocket
upgrades, and finally the HTTP version, defaulting to `Http11`. -/
def detect_protocol (s : List Char) : ProtocolType :=
  if is_http2_preface s then ProtocolType.Http2
  else
    match parse_http_method s with
    | none => ProtocolType.Unknown
    | some m =>
      if m = strL "CONNECT" then
        match parse_connect_target s with
        | some (h, p) => ProtocolType.ConnectTunnel h p (versionOr11 s)
        | none => detectRest s
      else detectRest s

/-! ## src/connection.rs -/

/-- `extract_proxy_auth`: case-sensitive search for the exact text
`"Proxy-Authorization: "`; the value runs to the next carriage return. -/
def extract_proxy_auth (s : List Char) : Option (List Char) :=
  match findSubIdx (strL "Proxy-Authorization: ") s with
  | none => none
  | some i =>
    let after := s.drop (i + 21)
    match findSubIdx (strL "\r") after with
    | none => none
    | some j => some (after.take j)

/-- `send_auth_required_response`: the exact 407 bytes written to the client. -/
def send_auth_required_response_chars : List Char :=
  strL "HTTP/1.0 407 Proxy Authentication Required\r\nProxy-Authenticate: Basic realm=\"RustProxy\"\r\n\r\n"

/-- `send_error_response`: `HTTP/1.0 <status>` with a plain-text body. -/
def send_error_response_chars (status msg : List Char) : List Char :=
  strL "HTTP/1.0 " ++ status ++ strL "\r\nContent-Type: text/plain\r\n\r\n" ++ msg ++ strL "\r\n"

/-! ## src/proxy.rs -/

/-- What `handle_connection` does with a non-empty initial buffer. -/
inductive ConnAction where
  | authReject (resp : List Char)
  | dispatch (p : ProtocolType)
deriving DecidableEq

/-- `Proxy::handle_connection` after the initial read: extract the
Proxy-Authorization header, authenticate, then classify and dispatch.
On failed authentication the 407 response is sent and the function
returns without invoking any handler. -/
def handle_connection_action (auth : Option AuthConfig) (buf : List Char) : ConnAction :=
  if check_authentication auth ((extract_proxy_auth buf).map utf8Encode) then
    ConnAction.dispatch (detect_protocol buf)
  else
    ConnAction.authReject send_auth_required_response_chars

/-- Outcome of `timeout(connect_timeout, TcpStream::connect(..))`. -/
inductive DialOutcome where
  | ok
  | timeout
  | err
deriving DecidableEq

/-- Bytes `handle_connect_tunnel` writes to the client before relaying or
returning: 200 on a successful dial, a 504 error response on a dial
timeout, and nothing on any other dial failure. -/
def connect_tunnel_client_response : DialOutcome → List Char
  | DialOutcome.ok => strL "HTTP/1.0 200 Connection Established\r\n\r\n"
  | DialOutcome.timeout =>
    send_error_response_chars (strL "504 Gateway Timeout") (strL "连接目标服务器超时")
  | DialOutcome.err => []

/-- Outcome of one write in a relay loop. -/
inductive WriteOutcome where
  | ok
  | err
  | timeout
deriving DecidableEq

/-- One iteration's environment events in the CONNECT tunnel copier:
the read outcome and, when data arrived, the outcome of writing it on. -/
inductive TunnelEvent where
  | readEof
  | readData (b : List Nat) (w : WriteOutcome)
  | readErr
  | readTimeout
deriving DecidableEq

/-- Chunks a CONNECT-tunnel copier direction forwards under an event
script: EOF breaks the loop; read errors, write errors and both timeouts
`continue` it (src/proxy.rs, the `client_to_target` and
`target_to_client` loops of `handle_connect_tunnel`). -/
def tunnel_copier_writes : List TunnelEvent → List (List Nat)
  | [] => []
  | TunnelEvent.readEof :: _ => []
  | TunnelEvent.readData b WriteOutcome.ok :: rest => b :: tunnel_copier_writes rest
  | TunnelEvent.readData _ WriteOutcome.err :: rest => tunnel_copier_writes rest
  | TunnelEvent.readData _ WriteOutcome.timeout :: rest => tunnel_copier_writes rest
  | TunnelEvent.readErr :: rest => tunnel_copier_writes rest
  | TunnelEvent.readTimeout :: rest => tunnel_copier_writes rest

/-! ## src/handlers/http1.rs and src/handlers/http2.rs -/

/-- One iteration's environment events in the plain relay copiers
(HTTP/1.x, HTTP/2, WebSocket): read outcome plus write success. -/
inductive RelayEvent where
  | readEof
  | readData (b : List Nat) (writeOk : Bool)
  | readErr
deriving DecidableEq

/-- Chunks a plain relay copier forwards: EOF, read errors and write
errors all break the loop. -/
def relay_copier_writes : List RelayEvent → List (List Nat)
  | [] => []
  | RelayEvent.readEof :: _ => []
  | RelayEvent.readData b true :: rest => b :: relay_copier_writes rest
  | RelayEvent.readData _ false :: _ => []
  | RelayEvent.readErr :: _ => []

/-- Observable I/O operations of a forward handler, in program order. -/
inductive RelayOp where
  | writeUp (b : List Nat)
  | readClient
deriving DecidableEq

/-- Operations of the client-to-target copier: each iteration reads from
the client and, on data, writes the chunk upstream; EOF, read errors and
write errors end the loop. -/
def c2t_trace : List RelayEvent → List RelayOp
  | [] => []
  | RelayEvent.readEof :: _ => [RelayOp.readClient]
  | RelayEvent.readData b _ :: rest => RelayOp.readClient :: RelayOp.writeUp b :: c2t_trace rest
  | RelayEvent.readErr :: _ => [RelayOp.readClient]

/-- `forward_http_request` (src/handlers/http1.rs): the initial buffer is
written upstream with `write_all` before the two copiers start; the
target-to-client copier performs no upstream writes and no client reads,
so the upstream-write/client-read operations are those of the
client-to-target copier, after the initial write. -/
def forward_http_request_trace (initial : List Nat) (evs : List RelayEvent) : List RelayOp :=
  RelayOp.writeUp initial :: c2t_trace evs

/-- `handle_http2` (src/handlers/http2.rs): after a successful dial the
initial buffer (with the preface) is written upstream before the copiers. -/
def handle_http2_trace (initial : List Nat) (evs : List RelayEvent) : List RelayOp :=
  RelayOp.writeUp initial :: c2t_trace evs

/-- Bytes written upstream over a trace, in order. -/
def upBytes : List RelayOp → List Nat
  | [] => []
  | RelayOp.writeUp b :: rest => b ++ upBytes rest
  | RelayOp.readClient :: rest => upBytes rest

/-! ## src/handlers/websocket.rs -/

/-- `WebSocketUpgrade` as parsed by `parse_websocket_upgrade`. -/
structure WebSocketUpgrade where
  key : List Char
  host : List Char
  port : Nat
  path : List Char
deriving DecidableEq

/-- The upgrade request `handle_websocket` synthesizes and sends upstream
(the Rust source's format string, one header line per chunk). -/
def ws_upgrade_request (u : WebSocketUpgrade) : List Char :=
  strL "GET " ++ u.path ++ strL " HTTP/1.1" ++ strL "\r\n" ++
    strL "Host: " ++ u.host ++ strL ":" ++ strL (Nat.repr u.port) ++ strL "\r\n" ++
    strL "Upgrade: websocket" ++ strL "\r\n" ++
    strL "Connection: Upgrade" ++ strL "\r\n" ++
    strL "Sec-WebSocket-Key: " ++ u.key ++ strL "\r\n" ++
    strL "Sec-WebSocket-Version: 13" ++ strL "\r\n\r\n"

/-- Outcome of reading the upstream's first response (up to 4096 bytes). -/
inductive WsReadOutcome where
  | closed
  | data (resp : List Char)
  | ioErr
deriving DecidableEq

/-- What `handle_websocket` does after reading the upstream response. -/
inductive WsAction where
  | reply502
  | forwardAndClose (resp : List Char)
  | proceedRelay (resp : List Char)
deriving DecidableEq

/-- Response handling in `handle_websocket`: a zero-length read or a read
error yields a 502 to the client; a response containing `HTTP/1.1 101` or
`HTTP/1.0 101` anywhere in the bytes read is forwarded and relaying
starts; any other response is forwarded to the client and the handler
ends. -/
def ws_response_action : WsReadOutcome → WsAction
  | WsReadOutcome.closed => WsAction.reply502
  | WsReadOutcome.ioErr => WsAction.reply502
  | WsReadOutcome.data resp =>
    if containsL resp (strL "HTTP/1.1 101") || containsL resp (strL "HTTP/1.0 101") then
      WsAction.proceedRelay resp
    else
      WsAction.forwardAndClose resp

/-! ## src/main.rs accept loop (admission semaphore) -/

/-- Accept-loop events: a connection task is spawned (which first
acquires a permit from the semaphore), or a spawned task finishes
(dropping its permit). -/
inductive AcceptEvent where
  | spawn
  | finish
deriving DecidableEq

/-- Semaphore-guarded state transition: `spawn` needs an available
permit; `finish` returns one.  The state is (available permits, active
tasks); traces in which `acquire_owned` would have to block are not
representable (`none`). -/
def accept_step : Nat × Nat → AcceptEvent → Option (Nat × Nat)
  | (avail, act), AcceptEvent.spawn =>
    if avail = 0 then none else some (avail - 1, act + 1)
  | (avail, act), AcceptEvent.finish =>
    if act = 0 then none else some (avail + 1, act - 1)

/-- Run the accept loop from a state over an event script. -/
def accept_run (st : Nat × Nat) : List AcceptEvent → Option (Nat × Nat)
  | [] => some st
  | e :: rest =>
    match accept_step st e with
    | none => none
    | some st2 => accept_run st2 rest

/-! ## Helper lemmas -/

/-- The alphabet table inverts the encoding table on 6-bit values. -/
theorem b64Index_b64Char : ∀ v < 64, b64Index (b64Char v) = some v := by decide

/-- No 6-bit value encodes to the padding byte. -/
theorem b64Char_ne_61 : ∀ v < 64, b64Char v ≠ 61 := by decide

/-- Decoding inverts encoding on byte lists (canonical padding round-trip). -/
theorem b64_roundtrip : ∀ l : List Nat, (∀ x ∈ l, x < 256) → b64Decode (b64Encode l) = some l
  | [], _ => rfl
  | [b1], h => by
    have hb1 : b1 < 256 := h b1 (by simp)
    have h1 : b1 / 4 < 64 := by omega
    have h2 : b1 % 4 * 16 < 64 := by omega
    simp [b64Encode, b64Decode, b64Index_b64Char _ h1, b64Index_b64Char _ h2]
    omega
  | [b1, b2], h => by
    have hb1 : b1 < 256 := h b1 (by simp)
    have hb2 : b2 < 256 := h b2 (by simp)
    have h1 : b1 / 4 < 64 := by omega
    have h2 : b1 % 4 * 16 + b2 / 16 < 64 := by omega
    have h3 : b2 % 16 * 4 < 64 := by omega
    simp [b64Encode, b64Decode, b64Index_b64Char _ h1, b64Index_b64Char _ h2,
      b64Index_b64Char _ h3, b64Char_ne_61 _ h3]
    omega
  | b1 :: b2 :: b3 :: rest, h => by
    have hb1 : b1 < 256 := h b1 (by simp)
    have hb2 : b2 < 256 := h b2 (by simp)
    have hb3 : b3 < 256 := h b3 (by simp)
    have h1 : b1 / 4 < 64 := by omega
    have h2 : b1 % 4 * 16 + b2 / 16 < 64 := by omega
    have h3 : b2 % 16 * 4 + b3 / 64 < 64 := by omega
    have h4 : b3 % 64 < 64 := by omega
    have ih := b64_roundtrip rest (fun x hx => h x (by simp [hx]))
    simp [b64Encode, b64Decode, b64Index_b64Char _ h1, b64Index_b64Char _ h2,
      b64Index_b64Char _ h3, b64Index_b64Char _ h4, b64Char_ne_61 _ h3,
      b64Char_ne_61 _ h4, ih]
    omega

/-- The automaton processes a concatenation sequentially. -/
theorem utf8Scan_append : ∀ (a c : List Nat) (st : Option (Nat × Nat × Nat)),
    utf8Scan st (a ++ c) = utf8Scan (utf8Scan st a) c
  | [], _, _ => rfl
  | b :: t, c, st => by
    rw [List.cons_append]
    simp only [utf8Scan]
    exact utf8Scan_append t c (utf8Step st b)

/-- Concatenating valid UTF-8 byte sequences yields a valid sequence. -/
theorem isValidUtf8_append (a c : List Nat)
    (ha : isValidUtf8 a = true) (hc : isValidUtf8 c = true) :
    isValidUtf8 (a ++ c) = true := by
  simp only [isValidUtf8, decide_eq_true_eq] at ha hc ⊢
  rw [utf8Scan_append, ha, hc]

/-- An ASCII byte heading a valid sequence. -/
theorem isValidUtf8_cons_ascii (b : Nat) (t : List Nat) (hb : b ≤ 127)
    (ht : isValidUtf8 t = true) : isValidUtf8 (b :: t) = true := by
  simp only [isValidUtf8, decide_eq_true_eq] at ht ⊢
  have hstep : utf8Step utf8Accept b = utf8Accept := by
    simp [utf8Step, utf8Accept, hb]
  calc utf8Scan utf8Accept (b :: t) = utf8Scan (utf8Step utf8Accept b) t := rfl
    _ = utf8Scan utf8Accept t := by rw [hstep]
    _ = utf8Accept := ht

/-- Splitting a list at its first separator occurrence, when the left part
is separator-free. -/
theorem splitOnceByte_append (u p : List Nat) (hu : 58 ∉ u) :
    splitOnceByte 58 (u ++ 58 :: p) = some (u, p) := by
  induction u with
  | nil => simp [splitOnceByte]
  | cons b t ih =>
    have hb : b ≠ 58 := by
      intro e
      exact hu (by simp [e])
    have ih2 := ih (by intro m; exact hu (by simp [m]))
    simp [splitOnceByte, hb, ih2]

/-! ## Claim theorems -/

/-- C10: round-trip of credential encoding: for every `AuthConfig` whose
username contains no colon (hypotheses: the username and password are
Rust `String`s, i.e. valid UTF-8 byte sequences), validating the header
produced by `generate_auth_header` against the same config returns true. -/
theorem c10_generate_validate_roundtrip (cfg : AuthConfig)
    (hu : isValidUtf8 cfg.username = true) (hp : isValidUtf8 cfg.password = true)
    (hbu : ∀ x ∈ cfg.username, x < 256) (hbp : ∀ x ∈ cfg.password, x < 256)
    (hcolon : 58 ∉ cfg.username) :
    validate_proxy_auth cfg (some (generate_auth_header cfg)) = true := by
  have hbounds : ∀ x ∈ cfg.username ++ 58 :: cfg.password, x < 256 := by
    intro x hx
    rcases List.mem_append.1 hx with h | h
    · exact hbu x h
    · rcases List.mem_cons.1 h with rfl | h
      · omega
      · exact hbp x h
  have hdec : b64Decode (b64Encode (cfg.username ++ 58 :: cfg.password)) =
      some (cfg.username ++ 58 :: cfg.password) := b64_roundtrip _ hbounds
  have hvalid : isValidUtf8 (cfg.username ++ 58 :: cfg.password) = true :=
    isValidUtf8_append _ _ hu (isValidUtf8_cons_ascii 58 _ (by omega) hp)
  have hsplit := splitOnceByte_append cfg.username cfg.password hcolon
  have hdrop : (generate_auth_header cfg).drop 6 =
      b64Encode (cfg.username ++ 58 :: cfg.password) := rfl
  have hpre : List.isPrefixOf basicBytes (generate_auth_header cfg) = true := by
    have hp2 : basicBytes <+: generate_auth_header cfg :=
      ⟨b64Encode (cfg.username ++ 58 :: cfg.password), rfl⟩
    simpa using hp2
  simp [validate_proxy_auth, hpre, hdrop, hdec, hvalid, hsplit]

/-- C10 witness: the round-trip at the concrete config alice/secret. -/
theorem c10_witness :
    validate_proxy_auth ⟨[97, 108, 105, 99, 101], [115, 101, 99, 114, 101, 116]⟩
      (some (generate_auth_header
        ⟨[97, 108, 105, 99, 101], [115, 101, 99, 114, 101, 116]⟩)) = true :=
  c10_generate_validate_roundtrip ⟨[97, 108, 105, 99, 101], [115, 101, 99, 114, 101, 116]⟩
    (by decide) (by decide) (by decide) (by decide) (by decide)

/-- C3: without an `AuthConfig`, `check_authentication` accepts every
header, present or absent; with one, an absent header is rejected, and a
present header is accepted iff it starts with the bytes of `"Basic "` and
its remainder is standard base64 decoding to valid UTF-8 text that, split
at its first colon, equals the configured username and password. -/
theorem c3_check_authentication_iff :
    (∀ h, check_authentication none h = true) ∧
    (∀ cfg, check_authentication (some cfg) none = false) ∧
    (∀ cfg h, check_authentication (some cfg) (some h) = true ↔
      List.isPrefixOf basicBytes h = true ∧
      ∃ d, b64Decode (h.drop 6) = some d ∧ isValidUtf8 d = true ∧
        splitOnceByte 58 d = some (cfg.username, cfg.password)) := by
  refine ⟨fun _ => rfl, fun _ => rfl, fun cfg h => ?_⟩
  simp only [check_authentication, validate_proxy_auth]
  cases hpre : List.isPrefixOf basicBytes h with
  | false => simp [hpre]
  | true =>
    cases hdec : b64Decode (h.drop 6) with
    | none => simp [hdec]
    | some d =>
      cases hval : isValidUtf8 d with
      | false => simp [hdec, hval]
      | true =>
        cases hsplit : splitOnceByte 58 d with
        | none => simp [hdec, hval, hsplit]
        | some up =>
          cases up with
          | mk u p => simp [hdec, hval, hsplit]

/-- C1 counterexample: when the CONNECT upstream dial fails for a reason
other than a timeout, the code sends nothing at all to the client — in
particular no 502 response — refuting the claim's 502 clause. -/
theorem c1_counterexample :
    connect_tunnel_client_response DialOutcome.err = [] ∧
    containsL (connect_tunnel_client_response DialOutcome.err) (strL "502") = false :=
  ⟨rfl, by decide⟩

/-- C1 amended: the 200-Established bytes are written iff the dial
succeeded; a dial timeout yields a response beginning `HTTP/1.0 504`; any
other dial failure yields no response at all before the connection is
dropped. -/
theorem c1_connect_tunnel_responses :
    (∀ d, connect_tunnel_client_response d =
        strL "HTTP/1.0 200 Connection Established\r\n\r\n" ↔ d = DialOutcome.ok) ∧
    List.isPrefixOf (strL "HTTP/1.0 504")
      (connect_tunnel_client_response DialOutcome.timeout) = true ∧
    connect_tunnel_client_response DialOutcome.err = [] := by
  refine ⟨fun d => ?_, by decide, rfl⟩
  cases d <;> decide

/-- C2: for the forwarded HTTP/1.0, HTTP/1.1 and cleartext HTTP/2 paths,
the handler's first operation is the upstream write of the initial buffer
(hence it precedes every relay read from the client), and the bytes
written upstream start with the initial buffer byte-for-byte. -/
theorem c2_initial_buffer_first_upstream (init : List Nat) (evs : List RelayEvent) :
    (forward_http_request_trace init evs).head? = some (RelayOp.writeUp init) ∧
    (handle_http2_trace init evs).head? = some (RelayOp.writeUp init) ∧
    init <+: upBytes (forward_http_request_trace init evs) ∧
    init <+: upBytes (handle_http2_trace init evs) :=
  ⟨rfl, rfl, ⟨upBytes (c2t_trace evs), rfl⟩, ⟨upBytes (c2t_trace evs), rfl⟩⟩

/-- C5 counterexample: the CONNECT tunnel copier keeps looping after a
read error and after a write error — data arriving later is still
forwarded — refuting the claim that any I/O error ends the direction. -/
theorem c5_counterexample :
    tunnel_copier_writes [TunnelEvent.readErr, TunnelEvent.readData [7] WriteOutcome.ok] =
      [[7]] ∧
    tunnel_copier_writes [TunnelEvent.readData [1] WriteOutcome.err,
      TunnelEvent.readData [2] WriteOutcome.ok] = [[2]] ∧
    ([[7]] : List (List Nat)) ≠ [] :=
  ⟨rfl, rfl, by decide⟩

/-- C5 amended: in the HTTP/1.x, HTTP/2 and WebSocket relay copiers a
zero-byte read, a read error or a write error each ends the direction; in
the CONNECT tunnel copiers only a zero-byte read ends it, while read
errors, write errors and timeouts continue the loop. -/
theorem c5_copier_termination :
    (∀ rest, relay_copier_writes (RelayEvent.readEof :: rest) = []) ∧
    (∀ rest, relay_copier_writes (RelayEvent.readErr :: rest) = []) ∧
    (∀ b rest, relay_copier_writes (RelayEvent.readData b false :: rest) = []) ∧
    (∀ rest, tunnel_copier_writes (TunnelEvent.readEof :: rest) = []) ∧
    (∀ rest, tunnel_copier_writes (TunnelEvent.readErr :: rest) =
      tunnel_copier_writes rest) ∧
    (∀ b rest, tunnel_copier_writes (TunnelEvent.readData b WriteOutcome.err :: rest) =
      tunnel_copier_writes rest) ∧
    (∀ b rest, tunnel_copier_writes (TunnelEvent.readData b WriteOutcome.timeout :: rest) =
      tunnel_copier_writes rest) ∧
    (∀ rest, tunnel_copier_writes (TunnelEvent.readTimeout :: rest) =
      tunnel_copier_writes rest) :=
  ⟨fun _ => rfl, fun _ => rfl, fun _ _ => rfl, fun _ => rfl, fun _ => rfl,
    fun _ _ => rfl, fun _ _ => rfl, fun _ => rfl⟩

/-- C6 counterexample: the 407 response's realm is `RustProxy`, not
`Proxy`; a request without credentials under the config alice/secret is
rejected with those actual bytes, not the claimed ones. -/
theorem c6_counterexample :
    send_auth_required_response_chars ≠
      strL "HTTP/1.0 407 Proxy Authentication Required\r\nProxy-Authenticate: Basic realm=\"Proxy\"\r\n\r\n" ∧
    handle_connection_action (some ⟨utf8Encode (strL "alice"), utf8Encode (strL "secret")⟩)
        (strL "GET http://example.com/ HTTP/1.1\r\nHost: example.com\r\n\r\n") =
      ConnAction.authReject send_auth_required_response_chars :=
  ⟨by decide, by decide⟩

/-- C6 amended: with auth configured, a first request whose extracted
Proxy-Authorization header fails validation makes the dispatcher send
exactly the 407 bytes with realm `RustProxy` and return without
dispatching to any protocol handler. -/
theorem c6_auth_reject_action (cfg : AuthConfig) (buf : List Char)
    (h : check_authentication (some cfg) ((extract_proxy_auth buf).map utf8Encode) = false) :
    handle_connection_action (some cfg) buf =
      ConnAction.authReject send_auth_required_response_chars := by
  simp [handle_connection_action, h]

/-- C6 witness: the amended theorem at a concrete config and buffer. -/
theorem c6_witness :
    handle_connection_action (some ⟨[97], [98]⟩) (strL "GET / HTTP/1.1\r\n\r\n") =
      ConnAction.authReject send_auth_required_response_chars :=
  c6_auth_reject_action ⟨[97], [98]⟩ (strL "GET / HTTP/1.1\r\n\r\n") (by decide)

/-- The split helper never returns an empty list of pieces. -/
theorem splitOnAux_nonempty (sep : Char) : ∀ (l acc : List Char), splitOnAux sep l acc ≠ [] := by
  intro l
  induction l with
  | nil => intro acc; simp [splitOnAux]
  | cons c t ih =>
    intro acc
    by_cases h : c = sep
    · simp [splitOnAux, h]
    · simpa [splitOnAux, h] using ih (c :: acc)

/-- Splitting a concatenation whose left part is separator-free: the left
part heads the result. -/
theorem splitOnAux_append_sep (sep : Char) : ∀ (a b acc : List Char), (∀ x ∈ a, x ≠ sep) →
    splitOnAux sep (a ++ sep :: b) acc = (acc.reverse ++ a) :: splitOnAux sep b [] := by
  intro a
  induction a with
  | nil => intro b acc h; simp [splitOnAux]
  | cons c t ih =>
    intro b acc h
    have hc : c ≠ sep := h c (by simp)
    rw [List.cons_append]
    simp only [splitOnAux, if_neg hc]
    rw [ih b (c :: acc) (fun x hx => h x (by simp [hx]))]
    simp

/-- First line of a buffer of the form `A ++ "\n" ++ B` with a
newline-free `A`. -/
theorem firstLineOf_append (s A B : List Char) (hs : s = A ++ '\n' :: B)
    (hA : ∀ x ∈ A, x ≠ '\n') : firstLineOf s = some (stripCR A) := by
  subst hs
  unfold firstLineOf linesOf splitOnChar
  rw [splitOnAux_append_sep '\n' A B [] hA]
  obtain ⟨y, ys, hrest⟩ : ∃ y ys, splitOnAux '\n' B [] = y :: ys := by
    cases hsp : splitOnAux '\n' B [] with
    | nil => exact absurd hsp (splitOnAux_nonempty '\n' B [])
    | cons y ys => exact ⟨y, ys, rfl⟩
  rw [hrest]
  dsimp only
  split <;> rfl

/-- A buffer that starts with the HTTP/2 preface parses method `PRI`. -/
theorem preface_method (s : List Char) (h : is_http2_preface s = true) :
    parse_http_method s = some (strL "PRI") := by
  have hpre : strL "PRI * HTTP/2.0\r\n\r\nSM\r\n\r\n" <+: s := by
    simpa [is_http2_preface] using h
  obtain ⟨rest, hrest⟩ := hpre
  have hlit : strL "PRI * HTTP/2.0\r\n\r\nSM\r\n\r\n" =
      strL "PRI * HTTP/2.0\r" ++ '\n' :: strL "\r\nSM\r\n\r\n" := by decide
  have hs : s = strL "PRI * HTTP/2.0\r" ++ '\n' :: (strL "\r\nSM\r\n\r\n" ++ rest) := by
    rw [← hrest, hlit]
    simp
  have hfl := firstLineOf_append s _ _ hs (by decide)
  unfold parse_http_method
  rw [hfl]
  decide

/-- The post-CONNECT branches only produce WebSocket or HTTP/1.x results. -/
theorem detectRest_cases (s : List Char) :
    detectRest s = ProtocolType.Http10 ∨ detectRest s = ProtocolType.Http11 ∨
    ∃ k h p v, detectRest s = ProtocolType.WebSocketUpgrade k h p v := by
  unfold detectRest detectVersion
  by_cases hws : is_websocket_upgrade s
  · simp only [hws, if_true]
    cases hd : parse_websocket_details s with
    | none =>
      cases hv : parse_http_version s with
      | none => simp
      | some v =>
        by_cases h10 : v = strL "HTTP/1.0"
        · simp [h10]
        · simp [h10]
    | some t =>
      obtain ⟨h1, p1, k1⟩ := t
      exact Or.inr (Or.inr ⟨k1, h1, p1, versionOr11 s, rfl⟩)
  · simp only [hws, if_false]
    cases hv : parse_http_version s with
    | none => simp
    | some v =>
      by_cases h10 : v = strL "HTTP/1.0"
      · simp [h10]
      · simp [h10]

/-- C4 counterexample: with a multi-colon CONNECT target the classifier
does not split on the last colon (the claim would give `ConnectTunnel`
with host `a:b` and port 443), and with an unparsable port it does not
return `Unknown`: both buffers classify as `Http11`. -/
theorem c4_counterexample :
    detect_protocol (strL "CONNECT a:b:443 HTTP/1.1\r\n\r\n") = ProtocolType.Http11 ∧
    detect_protocol (strL "CONNECT example.com HTTP/1.1\r\n\r\n") = ProtocolType.Http11 :=
  ⟨by decide, by decide⟩

/-- C4 amended: the classifier yields `ConnectTunnel` exactly when the
method token is CONNECT and the target splits at its FIRST colon into the
host and a parsable port (the piece between the first and second colon);
`Unknown` is returned exactly when no method token exists at all, so a
failed CONNECT target parse falls through to the WebSocket and version
checks instead. -/
theorem c4_connect_classifier (s : List Char) :
    (∀ host port ver, detect_protocol s = ProtocolType.ConnectTunnel host port ver ↔
      parse_http_method s = some (strL "CONNECT") ∧
      parse_connect_target s = some (host, port) ∧ ver = versionOr11 s) ∧
    (detect_protocol s = ProtocolType.Unknown ↔ parse_http_method s = none) ∧
    (∀ host port, parse_connect_target s = some (host, port) ↔
      ∃ fl tok second rest, firstLineOf s = some fl ∧
        2 ≤ (splitWs fl).length ∧ (splitWs fl).get? 1 = some tok ∧
        splitOnChar ':' tok = host :: second :: rest ∧
        parseU16 second = some port) := by
  refine ⟨?_, ?_, ?_⟩
  · intro host port ver
    cases hpre : is_http2_preface s with
    | true =>
      have hm := preface_method s hpre
      simp [detect_protocol, hpre, hm, show strL "PRI" ≠ strL "CONNECT" from by decide]
    | false =>
      cases hm : parse_http_method s with
      | none => simp [detect_protocol, hpre, hm]
      | some m =>
        by_cases hcm : m = strL "CONNECT"
        · subst hcm
          cases ht : parse_connect_target s with
          | none =>
            rcases detectRest_cases s with hc | hc | ⟨k, h1, p1, v1, hc⟩ <;>
              simp [detect_protocol, hpre, hm, ht, hc]
          | some hp0 =>
            obtain ⟨h0, p0⟩ := hp0
            simp only [detect_protocol, hpre, hm, ht]
            simp [and_assoc, eq_comm]
        · rcases detectRest_cases s with hc | hc | ⟨k, h1, p1, v1, hc⟩ <;>
            simp [detect_protocol, hpre, hm, hcm, hc]
  · cases hpre : is_http2_preface s with
    | true =>
      have hm := preface_method s hpre
      simp [detect_protocol, hpre, hm]
    | false =>
      cases hm : parse_http_method s with
      | none => simp [detect_protocol, hpre, hm]
      | some m =>
        by_cases hcm : m = strL "CONNECT"
        · subst hcm
          cases ht : parse_connect_target s with
          | none =>
            rcases detectRest_cases s with hc | hc | ⟨k, h1, p1, v1, hc⟩ <;>
              simp [detect_protocol, hpre, hm, ht, hc]
          | some hp0 =>
            obtain ⟨h0, p0⟩ := hp0
            simp [detect_protocol, hpre, hm, ht]
        · rcases detectRest_cases s with hc | hc | ⟨k, h1, p1, v1, hc⟩ <;>
            simp [detect_protocol, hpre, hm, hcm, hc]
  · intro host port
    unfold parse_connect_target
    cases hfl : firstLineOf s with
    | none => simp
    | some fl =>
      simp only [hfl, Option.some_bind]
      by_cases hlen : (splitWs fl).length < 2
      · have h2 : ¬ 2 ≤ (splitWs fl).length := by omega
        simp [hlen, h2]
      · have hlen2 : 2 ≤ (splitWs fl).length := Nat.not_lt.mp hlen
        cases hget : (splitWs fl)[1]? with
        | none =>
          have hn : (splitWs fl).length ≤ 1 := by
            simpa using hget
          omega
        | some tok =>
          cases hsp : splitOnChar ':' tok with
          | nil => exact absurd hsp (splitOnAux_nonempty ':' tok [])
          | cons host0 rest0 =>
            cases rest0 with
            | nil => simp [hlen, hget, hsp]
            | cons second0 rest0' =>
              cases hp16 : parseU16 second0 with
              | none => simp [hlen, hget, hsp, hp16]
              | some p0 => simp [hlen, hlen2, hget, hsp, hp16, and_assoc, eq_comm]

/-- C7 counterexample: the 101 check runs over the whole buffer read, not
the first line: a 403 upstream response whose header section mentions
`HTTP/1.1 101` is relayed as if the upgrade had been accepted, although
its first line contains neither `HTTP/1.1 101` nor `HTTP/1.0 101`. -/
theorem c7_counterexample :
    ws_response_action (WsReadOutcome.data
        (strL "HTTP/1.1 403 Forbidden\r\nX-Note: HTTP/1.1 101\r\n\r\n")) =
      WsAction.proceedRelay (strL "HTTP/1.1 403 Forbidden\r\nX-Note: HTTP/1.1 101\r\n\r\n") ∧
    firstLineOf (strL "HTTP/1.1 403 Forbidden\r\nX-Note: HTTP/1.1 101\r\n\r\n") =
      some (strL "HTTP/1.1 403 Forbidden") ∧
    containsL (strL "HTTP/1.1 403 Forbidden") (strL "HTTP/1.1 101") = false ∧
    containsL (strL "HTTP/1.1 403 Forbidden") (strL "HTTP/1.0 101") = false :=
  ⟨by decide, by decide, by decide, by decide⟩

/-- C7 amended: the synthesized upgrade request carries the client's
path, the `Host: host:port` header, the upgrade headers, the client's
key and version 13; the proxy relays iff the bytes read from upstream
contain `HTTP/1.1 101` or `HTTP/1.0 101` ANYWHERE (not just in the first
line), otherwise it forwards them verbatim and ends; a zero-length
upstream read (or a read error) yields a 502. -/
theorem c7_websocket_handshake :
    (∀ u : WebSocketUpgrade,
      u.path <:+: ws_upgrade_request u ∧
      (strL "Host: " ++ u.host ++ strL ":" ++ strL (Nat.repr u.port)) <:+:
        ws_upgrade_request u ∧
      strL "Upgrade: websocket" <:+: ws_upgrade_request u ∧
      strL "Connection: Upgrade" <:+: ws_upgrade_request u ∧
      (strL "Sec-WebSocket-Key: " ++ u.key) <:+: ws_upgrade_request u ∧
      strL "Sec-WebSocket-Version: 13" <:+: ws_upgrade_request u) ∧
    (∀ resp, ws_response_action (WsReadOutcome.data resp) = WsAction.proceedRelay resp ↔
      (containsL resp (strL "HTTP/1.1 101") || containsL resp (strL "HTTP/1.0 101")) = true) ∧
    (∀ resp, ws_response_action (WsReadOutcome.data resp) = WsAction.forwardAndClose resp ↔
      (containsL resp (strL "HTTP/1.1 101") || containsL resp (strL "HTTP/1.0 101")) = false) ∧
    ws_response_action WsReadOutcome.closed = WsAction.reply502 ∧
    ws_response_action WsReadOutcome.ioErr = WsAction.reply502 := by
  refine ⟨fun u => ⟨?_, ?_, ?_, ?_, ?_, ?_⟩, fun resp => ?_, fun resp => ?_, rfl, rfl⟩
  · exact ⟨strL "GET ",
      strL " HTTP/1.1" ++ strL "\r\n" ++ strL "Host: " ++ u.host ++ strL ":" ++
        strL (Nat.repr u.port) ++ strL "\r\n" ++ strL "Upgrade: websocket" ++ strL "\r\n" ++
        strL "Connection: Upgrade" ++ strL "\r\n" ++ strL "Sec-WebSocket-Key: " ++ u.key ++
        strL "\r\n" ++ strL "Sec-WebSocket-Version: 13" ++ strL "\r\n\r\n",
      by simp [ws_upgrade_request]⟩
  · exact ⟨strL "GET " ++ u.path ++ strL " HTTP/1.1" ++ strL "\r\n",
      strL "\r\n" ++ strL "Upgrade: websocket" ++ strL "\r\n" ++
        strL "Connection: Upgrade" ++ strL "\r\n" ++ strL "Sec-WebSocket-Key: " ++ u.key ++
        strL "\r\n" ++ strL "Sec-WebSocket-Version: 13" ++ strL "\r\n\r\n",
      by simp [ws_upgrade_request]⟩
  · exact ⟨strL "GET " ++ u.path ++ strL " HTTP/1.1" ++ strL "\r\n" ++ strL "Host: " ++
        u.host ++ strL ":" ++ strL (Nat.repr u.port) ++ strL "\r\n",
      strL "\r\n" ++ strL "Connection: Upgrade" ++ strL "\r\n" ++
        strL "Sec-WebSocket-Key: " ++ u.key ++ strL "\r\n" ++
        strL "Sec-WebSocket-Version: 13" ++ strL "\r\n\r\n",
      by simp [ws_upgrade_request]⟩
  · exact ⟨strL "GET " ++ u.path ++ strL " HTTP/1.1" ++ strL "\r\n" ++ strL "Host: " ++
        u.host ++ strL ":" ++ strL (Nat.repr u.port) ++ strL "\r\n" ++
        strL "Upgrade: websocket" ++ strL "\r\n",
      strL "\r\n" ++ strL "Sec-WebSocket-Key: " ++ u.key ++ strL "\r\n" ++
        strL "Sec-WebSocket-Version: 13" ++ strL "\r\n\r\n",
      by simp [ws_upgrade_request]⟩
  · exact ⟨strL "GET " ++ u.path ++ strL " HTTP/1.1" ++ strL "\r\n" ++ strL "Host: " ++
        u.host ++ strL ":" ++ strL (Nat.repr u.port) ++ strL "\r\n" ++
        strL "Upgrade: websocket" ++ strL "\r\n" ++ strL "Connection: Upgrade" ++ strL "\r\n",
      strL "\r\n" ++ strL "Sec-WebSocket-Version: 13" ++ strL "\r\n\r\n",
      by simp [ws_upgrade_request]⟩
  · exact ⟨strL "GET " ++ u.path ++ strL " HTTP/1.1" ++ strL "\r\n" ++ strL "Host: " ++
        u.host ++ strL ":" ++ strL (Nat.repr u.port) ++ strL "\r\n" ++
        strL "Upgrade: websocket" ++ strL "\r\n" ++ strL "Connection: Upgrade" ++ strL "\r\n" ++
        strL "Sec-WebSocket-Key: " ++ u.key ++ strL "\r\n",
      strL "\r\n\r\n",
      by simp [ws_upgrade_request]⟩
  · cases hc : containsL resp (strL "HTTP/1.1 101") || containsL resp (strL "HTTP/1.0 101") <;>
      simp [ws_response_action, hc]
  · cases hc : containsL resp (strL "HTTP/1.1 101") || containsL resp (strL "HTTP/1.0 101") <;>
      simp [ws_response_action, hc]

/-- A successful substring search means the pattern heads the rest. -/
theorem findSubIdx_drop (pat : List Char) : ∀ (l : List Char) (i : Nat),
    findSubIdx pat l = some i → List.isPrefixOf pat (l.drop i) = true := by
  intro l
  induction l with
  | nil =>
    intro i h
    by_cases hp : List.isPrefixOf pat ([] : List Char) = true
    · simp only [findSubIdx, if_pos hp, Option.some.injEq] at h
      rw [← h]
      simpa using hp
    · simp [findSubIdx, hp] at h
  | cons c t ih =>
    intro i h
    by_cases hp : List.isPrefixOf pat (c :: t) = true
    · simp only [findSubIdx, if_pos hp, Option.some.injEq] at h
      rw [← h]
      simpa using hp
    · simp only [findSubIdx, if_neg hp, Option.map_eq_some'] at h
      obtain ⟨j, hj, rfl⟩ := h
      simpa using ih j hj

/-- C8 counterexample: the extraction is case-sensitive: with the header
name spelt `proxy-authorization:` the dispatcher extracts nothing, so
authentication fails even though the very same credential in the exact
casing succeeds. -/
theorem c8_counterexample :
    extract_proxy_auth
      (strL "GET / HTTP/1.1\r\nproxy-authorization: Basic YWxpY2U6c2VjcmV0\r\n\r\n") = none ∧
    extract_proxy_auth
      (strL "GET / HTTP/1.1\r\nProxy-Authorization: Basic YWxpY2U6c2VjcmV0\r\n\r\n") =
      some (strL "Basic YWxpY2U6c2VjcmV0") ∧
    check_authentication (some ⟨utf8Encode (strL "alice"), utf8Encode (strL "secret")⟩)
      ((extract_proxy_auth
        (strL "GET / HTTP/1.1\r\nproxy-authorization: Basic YWxpY2U6c2VjcmV0\r\n\r\n")).map
          utf8Encode) = false ∧
    check_authentication (some ⟨utf8Encode (strL "alice"), utf8Encode (strL "secret")⟩)
      ((extract_proxy_auth
        (strL "GET / HTTP/1.1\r\nProxy-Authorization: Basic YWxpY2U6c2VjcmV0\r\n\r\n")).map
          utf8Encode) = true :=
  ⟨by decide, by decide, by decide, by decide⟩

/-- C8 amended: the dispatcher's extraction succeeds only when the exact
text `Proxy-Authorization: ` (this capitalisation, single space) occurs
in the buffer; header-name matching here is case-sensitive, unlike the
case-insensitive lookups in the HTTP/1.x and WebSocket parsers. -/
theorem c8_extract_case_sensitive (buf v : List Char)
    (h : extract_proxy_auth buf = some v) :
    strL "Proxy-Authorization: " <:+: buf := by
  unfold extract_proxy_auth at h
  cases hf : findSubIdx (strL "Proxy-Authorization: ") buf with
  | none => rw [hf] at h; exact absurd h (by simp)
  | some i =>
    have hp := findSubIdx_drop _ buf i hf
    have hp2 : strL "Proxy-Authorization: " <+: buf.drop i := by simpa using hp
    obtain ⟨t, ht⟩ := hp2
    refine ⟨buf.take i, t, ?_⟩
    calc buf.take i ++ strL "Proxy-Authorization: " ++ t
        = buf.take i ++ (strL "Proxy-Authorization: " ++ t) := by rw [List.append_assoc]
      _ = buf.take i ++ buf.drop i := by rw [ht]
      _ = buf := List.take_append_drop i buf

/-- C8 witness: the amended theorem at a concrete buffer. -/
theorem c8_witness :
    strL "Proxy-Authorization: " <:+: strL "x\r\nProxy-Authorization: abc\r\n" :=
  c8_extract_case_sensitive (strL "x\r\nProxy-Authorization: abc\r\n") (strL "abc") (by decide)

/-- The accept loop preserves the permit count: available plus active is
constant along any representable run. -/
theorem accept_run_invariant : ∀ (evs : List AcceptEvent) (st st2 : Nat × Nat),
    accept_run st evs = some st2 → st2.1 + st2.2 = st.1 + st.2 := by
  intro evs
  induction evs with
  | nil =>
    intro st st2 h
    simp only [accept_run, Option.some.injEq] at h
    rw [h]
  | cons e rest ih =>
    intro st st2 h
    simp only [accept_run] at h
    cases hst : accept_step st e with
    | none => rw [hst] at h; exact absurd h (by simp)
    | some st1 =>
      rw [hst] at h
      have h2 := ih st1 st2 h
      have h3 : st1.1 + st1.2 = st.1 + st.2 := by
        obtain ⟨a, b⟩ := st
        obtain ⟨c, d⟩ := st1
        cases e with
        | spawn =>
          by_cases ha : a = 0
          · simp [accept_step, ha] at hst
          · simp [accept_step, ha] at hst
            obtain ⟨hc, hd⟩ := hst
            simp only
            omega
        | finish =>
          by_cases hb : b = 0
          · simp [accept_step, hb] at hst
          · simp [accept_step, hb] at hst
            obtain ⟨hc, hd⟩ := hst
            simp only
            omega
      omega

/-- C9: along every representable run of the accept loop started with
`max-connections` free permits and no active tasks, the number of active
connection tasks never exceeds `max-connections`: a task is spawned only
after taking a permit and its permit returns only when it finishes. -/
theorem c9_max_connections_bound (maxConn : Nat) (evs : List AcceptEvent)
    (avail act : Nat) (h : accept_run (maxConn, 0) evs = some (avail, act)) :
    act ≤ maxConn := by
  have hinv := accept_run_invariant evs (maxConn, 0) (avail, act) h
  simp only at hinv
  omega

/-- C9 witness: a run at capacity 2 reaching 2 active tasks. -/
theorem c9_witness :
    accept_run (2, 0) [AcceptEvent.spawn, AcceptEvent.spawn, AcceptEvent.finish,
      AcceptEvent.spawn] = some (0, 2) ∧ 2 ≤ 2 :=
  ⟨by decide, c9_max_connections_bound 2 [AcceptEvent.spawn, AcceptEvent.spawn,
    AcceptEvent.finish, AcceptEvent.spawn] 0 2 (by decide)⟩

end RustProxy
